import Mathlib

/-!
Verification model of the forum URL repost-tracker (files urlStore.js,
urlTracker.js and the unnamed storage/tracker variants of the repository).

The JavaScript code is shallowly embedded:

* JS strings are Lean String; `String.prototype.trim` is modelled by jsTrim
  (drop whitespace characters from both ends of the character list).
* JS timestamps (Date.now, createdTimestamp, parsed ISO strings) are Int
  milliseconds; the hour age computed by getPostAgeHours is an exact rational,
  matching the JS floating division on the integer inputs the claims exercise.
* `Array.prototype.sort` with a comparator is a stable comparison sort in JS;
  it is modelled by sortStable, a stable insertion sort.
* The persisted JSON file is modelled by a Json value tree; JSON.stringify
  followed by JSON.parse is the identity on such trees.
* async methods that mutate `this` become state-passing functions; a thrown
  and caught exception becomes an Except value or an explicit branch.
-/

/-- Character class used by the model of the JS `String.prototype.trim`:
space, tab, newline, carriage return, vertical tab, form feed. -/
def isJsSpace (c : Char) : Bool :=
  c == ' ' || c == '\t' || c == '\n' || c == '\r' || c == '\x0b' || c == '\x0c'

/-- Trim of a character list: drop whitespace from the front, then from the back. -/
def trimChars (l : List Char) : List Char :=
  ((l.dropWhile isJsSpace).reverse.dropWhile isJsSpace).reverse

/-- Model of the JS `url.trim()` used by the storage code. -/
def jsTrim (s : String) : String :=
  ⟨trimChars s.data⟩

theorem dropWhile_dropWhile_self {α : Type} (p : α → Bool) (l : List α) :
    (l.dropWhile p).dropWhile p = l.dropWhile p := by
  induction l with
  | nil => simp
  | cons x xs ih =>
    by_cases h : p x
    · simp [List.dropWhile_cons, h, ih]
    · simp [List.dropWhile_cons, h]

theorem head_dropWhile_false {α : Type} (p : α → Bool) (l : List α) {y : α} {ys : List α}
    (h : l.dropWhile p = y :: ys) : p y = false := by
  induction l with
  | nil => simp at h
  | cons x xs ih =>
    by_cases hx : p x
    · rw [List.dropWhile_cons, if_pos hx] at h
      exact ih h
    · rw [List.dropWhile_cons, if_neg hx] at h
      cases h
      simpa using hx

theorem trimChars_trimChars (l : List Char) : trimChars (trimChars l) = trimChars l := by
  unfold trimChars
  set m := l.dropWhile isJsSpace with hm
  set r := (m.reverse.dropWhile isJsSpace).reverse with hr
  have hpref : r <+: m := by
    have h1 : (m.reverse.dropWhile isJsSpace).reverse <+: m.reverse.reverse :=
      List.reverse_prefix.mpr (List.dropWhile_suffix _)
    simpa [hr] using h1
  have hstep1 : r.dropWhile isJsSpace = r := by
    cases hcr : r with
    | nil => simp
    | cons y ys =>
      obtain ⟨t, ht⟩ := hpref
      have hmz : l.dropWhile isJsSpace = y :: (ys ++ t) := by
        rw [← hm, ← ht, hcr]; simp
      have hy : isJsSpace y = false := head_dropWhile_false isJsSpace l hmz
      rw [List.dropWhile_cons, if_neg (by simp [hy])]
  have hstep2 : r.reverse.dropWhile isJsSpace = r.reverse := by
    rw [hr, List.reverse_reverse]
    exact dropWhile_dropWhile_self isJsSpace m.reverse
  rw [hstep1, hstep2, List.reverse_reverse]

theorem jsTrim_jsTrim (s : String) : jsTrim (jsTrim s) = jsTrim s := by
  unfold jsTrim
  exact congrArg String.mk (trimChars_trimChars s.data)

/-- Insert an element into a sorted list, keeping earlier elements first on ties:
together with sortStable this models the stable comparator sort of JS
`Array.prototype.sort`. -/
def insertSorted {α : Type} (le : α → α → Bool) (x : α) : List α → List α
  | [] => [x]
  | y :: ys => if le x y then x :: y :: ys else y :: insertSorted le x ys

/-- Stable insertion sort, the model of JS `Array.prototype.sort(cmp)`. -/
def sortStable {α : Type} (le : α → α → Bool) : List α → List α
  | [] => []
  | x :: xs => insertSorted le x (sortStable le xs)

theorem insertSorted_perm {α : Type} (le : α → α → Bool) (x : α) (l : List α) :
    (insertSorted le x l).Perm (x :: l) := by
  induction l with
  | nil => simp [insertSorted]
  | cons y ys ih =>
    by_cases h : le x y
    · simp [insertSorted, h]
    · simp only [insertSorted, if_neg h]
      exact (List.Perm.cons y ih).trans (List.Perm.swap x y ys)

theorem sortStable_perm {α : Type} (le : α → α → Bool) (l : List α) :
    (sortStable le l).Perm l := by
  induction l with
  | nil => simp [sortStable]
  | cons x xs ih =>
    exact (insertSorted_perm le x (sortStable le xs)).trans (List.Perm.cons x ih)

theorem insertSorted_pairwise {α : Type} (le : α → α → Bool)
    (htrans : ∀ a b c, le a b = true → le b c = true → le a c = true)
    (htotal : ∀ a b, le a b = true ∨ le b a = true)
    (x : α) (l : List α) (hl : l.Pairwise (fun a b => le a b = true)) :
    (insertSorted le x l).Pairwise (fun a b => le a b = true) := by
  induction l with
  | nil => simp [insertSorted]
  | cons y ys ih =>
    rcases List.pairwise_cons.mp hl with ⟨hy, hys⟩
    by_cases h : le x y
    · simp only [insertSorted, if_pos h]
      refine List.pairwise_cons.mpr ⟨?_, hl⟩
      intro z hz
      rcases List.mem_cons.mp hz with hz | hz
      · exact hz ▸ h
      · exact htrans x y z h (hy z hz)
    · simp only [insertSorted, if_neg h]
      refine List.pairwise_cons.mpr ⟨?_, ih hys⟩
      intro z hz
      have hz' := (insertSorted_perm le x ys).mem_iff.mp hz
      rcases List.mem_cons.mp hz' with hz' | hz'
      · rcases htotal x y with hxy | hyx
        · exact absurd hxy h
        · rw [hz']; exact hyx
      · exact hy z hz'

theorem sortStable_pairwise {α : Type} (le : α → α → Bool)
    (htrans : ∀ a b c, le a b = true → le b c = true → le a c = true)
    (htotal : ∀ a b, le a b = true ∨ le b a = true)
    (l : List α) : (sortStable le l).Pairwise (fun a b => le a b = true) := by
  induction l with
  | nil => simp [sortStable]
  | cons a as ih =>
    simp only [sortStable]
    exact insertSorted_pairwise le htrans htotal a _ ih

/-!
Model of the UrlStorage class (the storage variant with the per-channel Map,
methods init, isDuplicateUrl, findUrlHistory, saveUrls, addUrl, deleteUrl).
The JS Map from channel id to an array of url entries is an association list
with distinct keys; Map.set keeps the position of an existing key and appends
a new key at the end.
-/

/-- A stored URL entry as built by UrlStorage.addUrl and saveUrls.  The
messageId and messageUrl properties are absent (undefined) when addUrl is
called without them, hence Option. -/
structure UrlEntry where
  url : String
  userId : String
  channelId : String
  threadId : Option String
  messageId : Option String
  messageUrl : Option String
  timestamp : Int
  deriving Repr, DecidableEq

/-- The mutable state of a UrlStorage instance: the channel map and the
isInitialized flag. -/
structure UrlStorageState where
  urls : List (String × List UrlEntry)
  isInitialized : Bool
  deriving Repr, DecidableEq

namespace UrlStorage

/-- UrlStorage.init on a fresh installation: the backing file read falls back
to the empty object, so the map starts empty and the store is initialized. -/
def initStorage : UrlStorageState :=
  { urls := [], isInitialized := true }

/-- UrlStorage.isDuplicateUrl: scans every channel list for an entry whose
trimmed url equals the trimmed argument. -/
def isDuplicateUrl (urls : List (String × List UrlEntry)) (url : String) : Bool :=
  urls.any (fun ch => ch.2.any (fun entry => jsTrim entry.url == jsTrim url))

/-- The loop of UrlStorage.findUrlHistory over the channel map: the first
channel containing a matching entry wins, and the returned object carries that
channel id. -/
def findInChannels (trimmedUrl : String) : List (String × List UrlEntry) → Option UrlEntry
  | [] => none
  | (channelId, entries) :: rest =>
    match entries.find? (fun entry => jsTrim entry.url == trimmedUrl) with
    | some entry => some { entry with channelId := channelId }
    | none => findInChannels trimmedUrl rest

/-- UrlStorage.findUrlHistory: when the store is not initialized it logs an
error and returns null (no exception is raised); otherwise it searches the
channel map for the trimmed url. -/
def findUrlHistory (st : UrlStorageState) (url : String) : Option UrlEntry :=
  if st.isInitialized then findInChannels (jsTrim url) st.urls else none

/-- this.urls.get(channelId) with the || [] fallback. -/
def getChannel (urls : List (String × List UrlEntry)) (channelId : String) : List UrlEntry :=
  ((urls.find? (fun ch => ch.1 == channelId)).map (fun ch => ch.2)).getD []

/-- this.urls.set(channelId, entries): replace the value of an existing key in
place, or append the new key at the end of the map. -/
def setChannel (urls : List (String × List UrlEntry)) (channelId : String)
    (entries : List UrlEntry) : List (String × List UrlEntry) :=
  if urls.any (fun ch => ch.1 == channelId) then
    urls.map (fun ch => if ch.1 == channelId then (channelId, entries) else ch)
  else urls ++ [(channelId, entries)]

/-- The comparator (a, b) => b.timestamp - a.timestamp of saveUrls: newest
first. -/
def byTimestampDesc (a b : UrlEntry) : Bool :=
  decide (b.timestamp ≤ a.timestamp)

/-- UrlStorage.saveUrls: append every entry of the batch that is not already a
duplicate of a stored entry (each one re-trimmed) to the channel list, sort it
newest first, store it and report how many entries were added.  The duplicate
check of the loop reads this.urls, which does not change during the loop, so
it is a filter against the incoming state. -/
def saveUrls (st : UrlStorageState) (channelId : String) (newUrls : List UrlEntry) :
    UrlStorageState × Nat :=
  if st.isInitialized then
    let existingUrls := getChannel st.urls channelId
    let added := newUrls.filter (fun newUrl => !isDuplicateUrl st.urls newUrl.url)
    let updatedUrls := existingUrls ++ added.map (fun newUrl => { newUrl with url := jsTrim newUrl.url })
    if added.length > 0 then
      ({ st with urls := setChannel st.urls channelId (sortStable byTimestampDesc updatedUrls) },
        added.length)
    else (st, 0)
  else (st, 0)

/-- UrlStorage.addUrl: refuse the whole insert when the trimmed url is already
stored anywhere, otherwise build the entry (url trimmed, timestamp = now) and
hand it to saveUrls for the poster channel. -/
def addUrl (st : UrlStorageState) (url userId channelId : String) (threadId : Option String)
    (messageId messageUrl : Option String) (now : Int) : UrlStorageState × Option UrlEntry :=
  if st.isInitialized then
    let trimmedUrl := jsTrim url
    if isDuplicateUrl st.urls trimmedUrl then (st, none)
    else
      let urlEntry : UrlEntry :=
        { url := trimmedUrl, userId := userId, channelId := channelId, threadId := threadId,
          messageId := messageId, messageUrl := messageUrl, timestamp := now }
      let result := saveUrls st channelId [urlEntry]
      if result.2 > 0 then (result.1, some urlEntry) else (result.1, none)
  else (st, none)

/-- The loop of UrlStorage.deleteUrl: the first channel whose list contains a
trimmed match has that first match spliced out, then the loop breaks. -/
def removeFirst (trimmedUrl : String) :
    List (String × List UrlEntry) → List (String × List UrlEntry) × Bool
  | [] => ([], false)
  | (channelId, entries) :: rest =>
    if entries.any (fun entry => jsTrim entry.url == trimmedUrl) then
      ((channelId, entries.eraseP (fun entry => jsTrim entry.url == trimmedUrl)) :: rest, true)
    else
      let r := removeFirst trimmedUrl rest
      ((channelId, entries) :: r.1, r.2)

/-- UrlStorage.deleteUrl. -/
def deleteUrl (st : UrlStorageState) (url : String) : UrlStorageState × Bool :=
  if st.isInitialized then
    let r := removeFirst (jsTrim url) st.urls
    ({ st with urls := r.1 }, r.2)
  else (st, false)

end UrlStorage

/-!
Model of the UrlTracker variant whose processUrl applies the repost threshold
(the tracker paired with UrlStorage): handleMessage extracts the urls with a
global regex match and processes every occurrence in order; processUrl decides
between first post, expired repost and blocked repost.
-/

/-- The decision taken by processUrl for one url.  The source replies with one
embed for a within-threshold repost, colored by whether the original poster is
the current author; blocked carries that isSameUser flag. -/
inductive Outcome
  | new
  | expiredRepost
  | blocked (isSameUser : Bool)
  deriving Repr, DecidableEq

/-- The fields of the incoming message that processUrl reads: author id,
channel id and whether the channel is a thread. -/
structure Msg where
  authorId : String
  channelId : String
  isThread : Bool
  deriving Repr, DecidableEq

/-- UrlTracker.getPostAgeHours: (now - postDate) / (1000 * 60 * 60), an exact
rational of the two integer millisecond instants. -/
def getPostAgeHours (timestamp now : Int) : ℚ :=
  ((now : ℚ) - (timestamp : ℚ)) / (1000 * 60 * 60)

namespace UrlTracker

/-- UrlTracker.processUrl: look the url up; on a hit, an age strictly above
the threshold stores the new instance through addUrl and allows the repost,
otherwise the repost is blocked (reply embed, optional delete of the posted
message — neither touches the store); on a miss the url is stored as new. -/
def processUrl (st : UrlStorageState) (url : String) (message : Msg) (now : Int)
    (thresholdHours : Int) : UrlStorageState × Outcome :=
  match UrlStorage.findUrlHistory st url with
  | some urlHistory =>
    let postAge := getPostAgeHours urlHistory.timestamp now
    if postAge > (thresholdHours : ℚ) then
      ((UrlStorage.addUrl st url message.authorId message.channelId
          (if message.isThread then some message.channelId else none) none none now).1,
        Outcome.expiredRepost)
    else
      (st, Outcome.blocked (urlHistory.userId == message.authorId))
  | none =>
    ((UrlStorage.addUrl st url message.authorId message.channelId
        (if message.isThread then some message.channelId else none) none none now).1,
      Outcome.new)

/-- The per-url loop of UrlTracker.handleMessage: message.content.match with a
global regex returns every occurrence (duplicates included), and each one is
passed to processUrl in order.  matchedUrls is that match result. -/
def handleMessage (st : UrlStorageState) (matchedUrls : List String) (message : Msg)
    (now : Int) (thresholdHours : Int) : UrlStorageState × List Outcome :=
  match matchedUrls with
  | [] => (st, [])
  | url :: rest =>
    let r := processUrl st url message now thresholdHours
    let rs := handleMessage r.1 rest message now thresholdHours
    (rs.1, r.2 :: rs.2)

/-- How the message-existence oracle call (channel.messages.fetch of the
stored messageId) can end: the promise resolves (the message is live), or it
rejects because the message was deleted, or it rejects because of a transient
network failure. -/
inductive OracleResult
  | live
  | gone
  | failure
  deriving Repr, DecidableEq

/-- The existence-check fragment of handleUrlMessage (and of the same-thread
branch of the older tracker variant): the fetch of the original message sits
in a try/catch (respectively has a .catch(() => null)) whose handler runs for
every rejection — deletion and transient failure alike — and deletes the
stored entry, reporting the message as no longer existing.  Returns the new
store state and the originalMessageExists flag. -/
def checkOriginalMessage (st : UrlStorageState) (url : String) (oracle : OracleResult) :
    UrlStorageState × Bool :=
  match oracle with
  | OracleResult.live => (st, true)
  | OracleResult.gone => ((UrlStorage.deleteUrl st url).1, false)
  | OracleResult.failure => ((UrlStorage.deleteUrl st url).1, false)

end UrlTracker

/-!
Model of the UrlStore class of urlStore.js (flat array of entries, lazy init)
and of the handleUrlMessage loop of urlTracker.js that uses it.
-/

/-- An entry of UrlStore.data.urls as built by UrlStore.addUrl: the method
takes only url, userId, channelId, threadId and stamps the current time
(extra caller arguments are ignored by the 4-parameter signature). -/
structure UrlEntryA where
  url : String
  userId : String
  channelId : String
  threadId : Option String
  timestamp : Int
  deriving Repr, DecidableEq

/-- The mutable state of a UrlStore instance. -/
structure UrlStoreState where
  dataUrls : List UrlEntryA
  initialized : Bool
  deriving Repr, DecidableEq

namespace UrlStore

/-- UrlStore.init: loadData parses the backing file into this.data; a missing
file (disk = none) leaves the fresh empty store.  Either way the store ends
initialized. -/
def init (disk : Option (List UrlEntryA)) : UrlStoreState :=
  { dataUrls := disk.getD [], initialized := true }

/-- The lazy `if (!this.initialized) await this.init()` guard at the top of
every UrlStore method. -/
def ensureInit (st : UrlStoreState) (disk : Option (List UrlEntryA)) : UrlStoreState :=
  if st.initialized then st else init disk

/-- UrlStore.addUrl: lazily initialize, build the entry and push it — no
duplicate check of any kind — then save. -/
def addUrl (st : UrlStoreState) (disk : Option (List UrlEntryA)) (url userId channelId : String)
    (threadId : Option String) (now : Int) : UrlStoreState × UrlEntryA :=
  let st1 := ensureInit st disk
  let urlEntry : UrlEntryA := { url := url, userId := userId, channelId := channelId,
                                threadId := threadId, timestamp := now }
  ({ st1 with dataUrls := st1.dataUrls ++ [urlEntry] }, urlEntry)

/-- The comparator of UrlStore.findUrlHistory: earliest timestamp first. -/
def byTimestampAsc (a b : UrlEntryA) : Bool :=
  decide (a.timestamp ≤ b.timestamp)

/-- The body of UrlStore.findUrlHistory: filter the entries with this exact
url, sort them earliest first (JS sort is stable) and take element [0]
(undefined — none — on the empty array). -/
def findEarliest (entries : List UrlEntryA) (url : String) : Option UrlEntryA :=
  (sortStable byTimestampAsc (entries.filter (fun entry => entry.url == url))).head?

/-- UrlStore.findUrlHistory: lazily initialize, then return the earliest
stored instance of the url. -/
def findUrlHistory (st : UrlStoreState) (disk : Option (List UrlEntryA)) (url : String) :
    UrlStoreState × Option UrlEntryA :=
  let st1 := ensureInit st disk
  (st1, findEarliest st1.dataUrls url)

end UrlStore

namespace UrlTrackerA

/-- The decision classification of the handleUrlMessage loop of urlTracker.js
for one url (a completed iteration). -/
inductive OutcomeA
  | blockedOtherUser
  | blockedSameUserOtherLocation
  | blockedSameUserSameLocation
  | newUrl
  deriving Repr, DecidableEq

/-- The message fields read by the handleUrlMessage loop of urlTracker.js. -/
structure MsgA where
  authorId : String
  channelId : String
  isThread : Bool
  deriving Repr, DecidableEq

/-- One iteration of the for-loop of handleUrlMessage in urlTracker.js.
Except.error carries the in-memory store state at the moment an exception
escapes the iteration (the enclosing try/catch wraps the whole loop).

* Existing entry, message fetch resolves: different author or different
  channel gets a reply embed, same author and channel does nothing; none of
  these touch the store.
* Existing entry, message fetch rejects (message deleted, or a transient
  failure — the catch block cannot tell them apart): the handler calls
  this.urlStore.deleteUrl, but UrlStore of urlStore.js defines no deleteUrl
  method, so the call itself throws and escapes to the loop-level catch with
  the store unchanged.
* No entry: addNewUrlEntry pushes the entry into this.data.urls and then
  awaits saveData; a failing file write (writeOk = false) throws after the
  in-memory push already happened. -/
def processOne (st : UrlStoreState) (disk : Option (List UrlEntryA)) (url : String)
    (message : MsgA) (oracle : UrlTracker.OracleResult) (writeOk : Bool) (now : Int) :
    Except UrlStoreState (UrlStoreState × OutcomeA) :=
  let r := UrlStore.findUrlHistory st disk url
  match r.2 with
  | some existingUrl =>
    match oracle with
    | UrlTracker.OracleResult.live =>
      if existingUrl.userId != message.authorId then
        Except.ok (r.1, OutcomeA.blockedOtherUser)
      else if existingUrl.channelId != message.channelId then
        Except.ok (r.1, OutcomeA.blockedSameUserOtherLocation)
      else
        Except.ok (r.1, OutcomeA.blockedSameUserSameLocation)
    | _ => Except.error r.1
  | none =>
    let r2 := UrlStore.addUrl r.1 disk url message.authorId message.channelId
      (if message.isThread then some message.channelId else none) now
    if writeOk then Except.ok (r2.1, OutcomeA.newUrl) else Except.error r2.1

/-- The for-loop of UrlTracker.handleUrlMessage of urlTracker.js, wrapped as
in the source in one try/catch around the whole loop: an exception thrown
while processing one url is logged and ends the handling of the entire
message, so the remaining urls are never processed.  Returns the final store
and the (url, outcome) pairs of the completed iterations. -/
def handleUrlMessage (st : UrlStoreState) (disk : Option (List UrlEntryA))
    (urls : List String) (message : MsgA) (oracle : String → UrlTracker.OracleResult)
    (writeOk : String → Bool) (now : Int) : UrlStoreState × List (String × OutcomeA) :=
  match urls with
  | [] => (st, [])
  | url :: rest =>
    match processOne st disk url message (oracle url) (writeOk url) now with
    | Except.error st1 => (st1, [])
    | Except.ok (st1, outcome) =>
      let r := handleUrlMessage st1 disk rest message oracle writeOk now
      (r.1, (url, outcome) :: r.2)

end UrlTrackerA

/-!
Model of the persisted JSON snapshot of UrlStorage: saveUrls writes
JSON.stringify(Object.fromEntries(this.urls)) and init rebuilds the map from
Object.entries(JSON.parse(data)).  The value tree written and read back is
modelled by Json; JSON.stringify of a defined property writes it, an
undefined property (absent Option field) is dropped, and null is written as
null.
-/

/-- A JSON value tree as produced by JSON.parse. -/
inductive Json
  | null
  | str (s : String)
  | num (n : Int)
  | arr (elems : List Json)
  | obj (fields : List (String × Json))

/-- Property lookup on a parsed JSON object. -/
def Json.getField (fields : List (String × Json)) (name : String) : Option Json :=
  (fields.find? (fun f => f.1 == name)).map (fun f => f.2)

/-- JSON.stringify of an optional string property: present when defined,
dropped when undefined. -/
def encodeOptField (name : String) : Option String → List (String × Json)
  | some s => [(name, Json.str s)]
  | none => []

/-- The JSON object written for one stored entry. -/
def encodeEntry (entry : UrlEntry) : Json :=
  Json.obj ([("url", Json.str entry.url), ("userId", Json.str entry.userId),
    ("channelId", Json.str entry.channelId),
    ("threadId", match entry.threadId with | some t => Json.str t | none => Json.null)]
    ++ encodeOptField "messageId" entry.messageId
    ++ encodeOptField "messageUrl" entry.messageUrl
    ++ [("timestamp", Json.num entry.timestamp)])

/-- Read back a required string property. -/
def decodeStr : Option Json → Option String
  | some (Json.str s) => some s
  | _ => none

/-- Read back a nullable string property (threadId: null is stored
explicitly). -/
def decodeNullableStr : Option Json → Option (Option String)
  | some (Json.str s) => some (some s)
  | some Json.null => some none
  | _ => none

/-- Read back an optional string property (messageId, messageUrl: an
undefined property was dropped by stringify, so an absent field reads back as
undefined). -/
def decodeOptStr : Option Json → Option (Option String)
  | some (Json.str s) => some (some s)
  | none => some none
  | _ => none

/-- Rebuild one stored entry from its parsed JSON object. -/
def decodeEntry : Json → Option UrlEntry
  | Json.obj fields =>
    match decodeStr (Json.getField fields "url"),
        decodeStr (Json.getField fields "userId"),
        decodeStr (Json.getField fields "channelId"),
        decodeNullableStr (Json.getField fields "threadId"),
        decodeOptStr (Json.getField fields "messageId"),
        decodeOptStr (Json.getField fields "messageUrl"),
        Json.getField fields "timestamp" with
    | some url, some userId, some channelId, some threadId, some messageId, some messageUrl,
        some (Json.num ts) =>
      some { url := url, userId := userId, channelId := channelId, threadId := threadId,
             messageId := messageId, messageUrl := messageUrl, timestamp := ts }
    | _, _, _, _, _, _, _ => none
  | _ => none

/-- Rebuild a channel list from its parsed JSON array. -/
def decodeEntryList : List Json → Option (List UrlEntry)
  | [] => some []
  | j :: rest =>
    match decodeEntry j, decodeEntryList rest with
    | some entry, some entries => some (entry :: entries)
    | _, _ => none

/-- Object.fromEntries(this.urls) as written by saveUrls: one property per
channel, holding the array of its entries. -/
def encodeStore (urls : List (String × List UrlEntry)) : Json :=
  Json.obj (urls.map (fun ch => (ch.1, Json.arr (ch.2.map encodeEntry))))

/-- The Object.entries loop of init: rebuild the channel map, channel by
channel, from the parsed object. -/
def decodeChannelList : List (String × Json) → Option (List (String × List UrlEntry))
  | [] => some []
  | f :: rest =>
    match f.2, decodeChannelList rest with
    | Json.arr js, some chans =>
      match decodeEntryList js with
      | some entries => some ((f.1, entries) :: chans)
      | none => none
    | _, _ => none

/-- JSON.parse of the persisted snapshot, fed into the Object.entries loop. -/
def decodeStore : Json → Option (List (String × List UrlEntry))
  | Json.obj fields => decodeChannelList fields
  | _ => none

theorem decodeEntry_encodeEntry (entry : UrlEntry) :
    decodeEntry (encodeEntry entry) = some entry := by
  rcases entry with ⟨url, userId, channelId, threadId, messageId, messageUrl, ts⟩
  rcases threadId with _ | t <;> rcases messageId with _ | mi <;> rcases messageUrl with _ | mu <;>
    simp [encodeEntry, decodeEntry, Json.getField, encodeOptField, decodeStr,
      decodeNullableStr, decodeOptStr, List.find?]

theorem decodeEntryList_map_encodeEntry (entries : List UrlEntry) :
    decodeEntryList (entries.map encodeEntry) = some entries := by
  induction entries with
  | nil => simp [decodeEntryList]
  | cons e rest ih => simp [decodeEntryList, decodeEntry_encodeEntry, ih]

theorem decodeStore_encodeStore (urls : List (String × List UrlEntry)) :
    decodeStore (encodeStore urls) = some urls := by
  have main : ∀ (l : List (String × List UrlEntry)),
      decodeChannelList (l.map (fun ch => (ch.1, Json.arr (ch.2.map encodeEntry)))) = some l := by
    intro l
    induction l with
    | nil => simp [decodeChannelList]
    | cons ch rest ih =>
      simp [decodeChannelList, decodeEntryList_map_encodeEntry, ih]
  simpa [encodeStore, decodeStore] using main urls

/-!
Invariant development for the UrlStorage store: the isDuplicateUrl guard of
addUrl keeps at most one stored entry per trimmed url across all channels.
-/

/-- All entries stored anywhere in the channel map. -/
def allEntries (urls : List (String × List UrlEntry)) : List UrlEntry :=
  (urls.map (fun ch => ch.2)).flatten

/-- The dedup keys (trimmed urls) of all stored entries. -/
def storeKeys (urls : List (String × List UrlEntry)) : List String :=
  (allEntries urls).map (fun entry => jsTrim entry.url)

@[simp] theorem allEntries_nil : allEntries [] = [] := rfl

@[simp] theorem allEntries_cons (ch : String × List UrlEntry)
    (rest : List (String × List UrlEntry)) :
    allEntries (ch :: rest) = ch.2 ++ allEntries rest := by
  simp [allEntries]

theorem allEntries_append (a b : List (String × List UrlEntry)) :
    allEntries (a ++ b) = allEntries a ++ allEntries b := by
  simp [allEntries]

/-- The duplicate check fails exactly when no stored entry has the trimmed
argument as its dedup key. -/
theorem isDuplicateUrl_eq_false_iff (urls : List (String × List UrlEntry)) (v : String) :
    UrlStorage.isDuplicateUrl urls v = false ↔ jsTrim v ∉ storeKeys urls := by
  rw [← Bool.not_eq_true]
  simp only [UrlStorage.isDuplicateUrl, storeKeys, allEntries, List.any_eq_true,
    List.mem_map, List.mem_flatten]
  constructor
  · rintro h ⟨entry, ⟨⟨es, ⟨⟨ch, hch, hes⟩, hentry⟩⟩, hkey⟩⟩
    exact h ⟨ch, hch, entry, hes ▸ hentry, by simp [hkey]⟩
  · rintro h ⟨ch, hch, entry, hentry, hbeq⟩
    exact h ⟨entry, ⟨⟨ch.2, ⟨⟨ch, hch, rfl⟩, hentry⟩⟩, beq_iff_eq.mp hbeq⟩⟩

theorem setChannel_map_fst (urls : List (String × List UrlEntry)) (cid : String)
    (L : List UrlEntry) :
    (UrlStorage.setChannel urls cid L).map Prod.fst =
      if urls.any (fun ch => ch.1 == cid) then urls.map Prod.fst
      else urls.map Prod.fst ++ [cid] := by
  unfold UrlStorage.setChannel
  split
  · rw [List.map_map]
    apply List.map_congr_left
    intro ch _
    by_cases h : ch.1 == cid
    · simp only [Function.comp_apply, if_pos h]
      exact (beq_iff_eq.mp h).symm
    · simp only [Function.comp_apply, if_neg h]
  · simp

theorem allEntries_setChannel_perm (urls : List (String × List UrlEntry)) (cid : String)
    (hnd : (urls.map Prod.fst).Nodup) (l L : List UrlEntry)
    (hL : L.Perm (UrlStorage.getChannel urls cid ++ l)) :
    (allEntries (UrlStorage.setChannel urls cid L)).Perm (allEntries urls ++ l) := by
  induction urls with
  | nil =>
    simp only [UrlStorage.getChannel, List.find?_nil, Option.map_none, Option.getD_none,
      List.nil_append] at hL
    simpa [UrlStorage.setChannel] using hL
  | cons ch rest ih =>
    obtain ⟨c, es⟩ := ch
    by_cases hc : c == cid
    · have hce : c = cid := beq_iff_eq.mp hc
      have hnd' : (c :: rest.map Prod.fst).Nodup := by simpa using hnd
      have hcmem : c ∉ rest.map Prod.fst := (List.nodup_cons.mp hnd').1
      have hrest : ∀ p ∈ rest, (p.1 == cid) = false := by
        intro p hp
        by_contra hbeq
        have hp1 : p.1 = cid := beq_iff_eq.mp (Bool.not_eq_false _ ▸ hbeq)
        exact hcmem (List.mem_map.mpr ⟨p, hp, hp1.trans hce.symm⟩)
      have hany : ((c, es) :: rest).any (fun ch => ch.1 == cid) = true := by
        simp [hc]
      have hmaprest :
          rest.map (fun ch => if ch.1 == cid then (cid, L) else ch) = rest := by
        have : ∀ p ∈ rest, (if p.1 == cid then ((cid, L) : String × List UrlEntry) else p) = p := by
          intro p hp
          rw [if_neg (by simp [hrest p hp])]
        calc rest.map (fun ch => if ch.1 == cid then (cid, L) else ch)
            = rest.map id := List.map_congr_left this
          _ = rest := List.map_id rest
      have hget : UrlStorage.getChannel ((c, es) :: rest) cid = es := by
        simp [UrlStorage.getChannel, List.find?_cons, hc]
      rw [hget] at hL
      have hset : UrlStorage.setChannel ((c, es) :: rest) cid L = (cid, L) :: rest := by
        simp only [UrlStorage.setChannel, if_pos hany, List.map_cons, if_pos hc, hmaprest]
      rw [hset]
      simp only [allEntries_cons]
      have h1 : (L ++ allEntries rest).Perm ((es ++ l) ++ allEntries rest) :=
        hL.append_right (allEntries rest)
      have h2 : ((es ++ l) ++ allEntries rest).Perm (es ++ (allEntries rest ++ l)) := by
        rw [List.append_assoc]
        exact List.Perm.append_left es List.perm_append_comm
      have h3 : (es ++ (allEntries rest ++ l)).Perm ((es ++ allEntries rest) ++ l) := by
        rw [List.append_assoc]
      exact (h1.trans h2).trans h3
    · have hget : UrlStorage.getChannel ((c, es) :: rest) cid =
          UrlStorage.getChannel rest cid := by
        simp [UrlStorage.getChannel, List.find?_cons, hc]
      rw [hget] at hL
      have hndrest : (rest.map Prod.fst).Nodup := (List.nodup_cons.mp (by simpa using hnd)).2
      by_cases hany : rest.any (fun ch => ch.1 == cid)
      · have hset : UrlStorage.setChannel ((c, es) :: rest) cid L =
            (c, es) :: UrlStorage.setChannel rest cid L := by
          simp [UrlStorage.setChannel, hc, hany]
          intro h
          exact absurd (beq_iff_eq.mpr h) hc
        rw [hset]
        simp only [allEntries_cons, List.append_assoc]
        exact List.Perm.append_left es (ih hndrest hL)
      · have hanyf : (rest.any fun ch => ch.1 == cid) = false := Bool.eq_false_iff.mpr hany
        have hfind : rest.find? (fun ch => ch.1 == cid) = none := by
          rw [List.find?_eq_none]
          intro p hp
          exact (List.any_eq_false.mp hanyf) p hp
        have hget2 : UrlStorage.getChannel rest cid = [] := by
          simp [UrlStorage.getChannel, hfind]
        rw [hget2, List.nil_append] at hL
        have hset : UrlStorage.setChannel ((c, es) :: rest) cid L =
            ((c, es) :: rest) ++ [(cid, L)] := by
          simp [UrlStorage.setChannel, hc, hanyf]
        rw [hset, allEntries_append]
        simp only [allEntries_cons, allEntries_nil, List.append_nil, List.append_assoc]
        exact List.Perm.append_left es (List.Perm.append_left (allEntries rest) hL)

/-- Well-formedness of a UrlStorage state: the JS Map has distinct channel
keys, and no two stored entries share a dedup key (trimmed url). -/
def StorageWF (st : UrlStorageState) : Prop :=
  (st.urls.map Prod.fst).Nodup ∧ (storeKeys st.urls).Nodup

theorem storageWF_initStorage : StorageWF UrlStorage.initStorage := by
  constructor <;> simp [UrlStorage.initStorage, storeKeys, allEntries]

theorem addUrl_fst_of_not_dup (st : UrlStorageState) (url userId channelId : String)
    (threadId messageId messageUrl : Option String) (now : Int)
    (hinit : st.isInitialized = true)
    (hdup : UrlStorage.isDuplicateUrl st.urls (jsTrim url) = false) :
    (UrlStorage.addUrl st url userId channelId threadId messageId messageUrl now).1 =
      { st with urls := (UrlStorage.setChannel st.urls channelId
          (sortStable UrlStorage.byTimestampDesc
            (UrlStorage.getChannel st.urls channelId ++
              [{ url := jsTrim url, userId := userId, channelId := channelId,
                 threadId := threadId, messageId := messageId, messageUrl := messageUrl,
                 timestamp := now }]))) } := by
  unfold UrlStorage.addUrl UrlStorage.saveUrls
  simp [hinit, hdup, List.filter_cons, jsTrim_jsTrim]

theorem addUrl_preserves_wf (st : UrlStorageState) (url userId channelId : String)
    (threadId messageId messageUrl : Option String) (now : Int) (h : StorageWF st) :
    StorageWF (UrlStorage.addUrl st url userId channelId threadId messageId
      messageUrl now).1 := by
  rcases h with ⟨hch, hkeys⟩
  by_cases hinit : st.isInitialized
  case neg =>
    simp only [UrlStorage.addUrl, if_neg hinit]
    exact ⟨hch, hkeys⟩
  by_cases hdup : UrlStorage.isDuplicateUrl st.urls (jsTrim url)
  case pos =>
    simp only [UrlStorage.addUrl, if_pos hinit, if_pos hdup]
    exact ⟨hch, hkeys⟩
  have hdupf : UrlStorage.isDuplicateUrl st.urls (jsTrim url) = false :=
    Bool.eq_false_iff.mpr hdup
  rw [addUrl_fst_of_not_dup st url userId channelId threadId messageId messageUrl now hinit hdupf]
  have hperm := allEntries_setChannel_perm st.urls channelId hch
    [{ url := jsTrim url, userId := userId, channelId := channelId, threadId := threadId,
       messageId := messageId, messageUrl := messageUrl, timestamp := now }]
    (sortStable UrlStorage.byTimestampDesc
      (UrlStorage.getChannel st.urls channelId ++
        [{ url := jsTrim url, userId := userId, channelId := channelId, threadId := threadId,
           messageId := messageId, messageUrl := messageUrl, timestamp := now }]))
    (sortStable_perm _ _)
  constructor
  · rw [setChannel_map_fst]
    split
    · exact hch
    · rename_i hany
      have hanyf : (st.urls.any fun ch => ch.1 == channelId) = false :=
        Bool.eq_false_iff.mpr hany
      have hcid : channelId ∉ st.urls.map Prod.fst := by
        intro hmem
        rcases List.mem_map.mp hmem with ⟨p, hp, hfst⟩
        exact (List.any_eq_false.mp hanyf) p hp (by simp [hfst])
      exact List.Nodup.perm (List.nodup_cons.mpr ⟨hcid, hch⟩)
        (@List.perm_append_comm _ [channelId] (st.urls.map Prod.fst))
  · have hkperm :
        (storeKeys (UrlStorage.setChannel st.urls channelId
          (sortStable UrlStorage.byTimestampDesc
            (UrlStorage.getChannel st.urls channelId ++
              [{ url := jsTrim url, userId := userId, channelId := channelId,
                 threadId := threadId, messageId := messageId, messageUrl := messageUrl,
                 timestamp := now }])))).Perm (storeKeys st.urls ++ [jsTrim url]) := by
      have := hperm.map (fun entry => jsTrim entry.url)
      simpa [storeKeys, jsTrim_jsTrim] using this
    have hfresh : jsTrim url ∉ storeKeys st.urls := by
      have hiff := (isDuplicateUrl_eq_false_iff st.urls (jsTrim url)).mp hdupf
      rwa [jsTrim_jsTrim] at hiff
    exact hkperm.nodup_iff.mpr
      (List.Nodup.perm (List.nodup_cons.mpr ⟨hfresh, hkeys⟩)
        (@List.perm_append_comm _ [jsTrim url] (storeKeys st.urls)))

/-- The arguments of one UrlStorage.addUrl call. -/
structure AddRequest where
  url : String
  userId : String
  channelId : String
  threadId : Option String
  messageId : Option String
  messageUrl : Option String
  now : Int

/-- A sequence of addUrl calls applied to a store state. -/
def applyAdds (st : UrlStorageState) (ops : List AddRequest) : UrlStorageState :=
  ops.foldl (fun s op =>
    (UrlStorage.addUrl s op.url op.userId op.channelId op.threadId op.messageId
      op.messageUrl op.now).1) st

theorem applyAdds_wf (ops : List AddRequest) (st : UrlStorageState) (h : StorageWF st) :
    StorageWF (applyAdds st ops) := by
  induction ops generalizing st with
  | nil => exact h
  | cons op rest ih =>
    simp only [applyAdds, List.foldl_cons]
    exact ih _ (addUrl_preserves_wf st op.url op.userId op.channelId op.threadId
      op.messageId op.messageUrl op.now h)

/-!
Concrete fixtures used by the claim evaluations below.
-/

/-- A stored record: userA posted https://x.com in chan1 at t = 0. -/
def e0 : UrlEntry :=
  { url := "https://x.com", userId := "userA", channelId := "chan1", threadId := none,
    messageId := some "m0", messageUrl := some "https://discord.com/channels/g/chan1/m0",
    timestamp := 0 }

/-- An initialized UrlStorage store holding exactly the record e0. -/
def stC1 : UrlStorageState := { urls := [("chan1", [e0])], isInitialized := true }

/-- A message by userB in chan1. -/
def msgB : Msg := { authorId := "userB", channelId := "chan1", isThread := false }

/-- A message by userA in chan1. -/
def msgA : Msg := { authorId := "userA", channelId := "chan1", isThread := false }

/-- A UrlStore entry: userC posted https://a.com in chan2 at t = 5. -/
def eA : UrlEntryA :=
  { url := "https://a.com", userId := "userC", channelId := "chan2", threadId := none,
    timestamp := 5 }

/-- A UrlStore entry for the same url with the earlier timestamp t = 3. -/
def eA3 : UrlEntryA :=
  { url := "https://a.com", userId := "userD", channelId := "chan3", threadId := none,
    timestamp := 3 }

/-- A message by userA in chan1 for the urlTracker.js loop model. -/
def msgA7 : UrlTrackerA.MsgA :=
  { authorId := "userA", channelId := "chan1", isThread := false }

/-- The record stored by the first posting of https://a.com (by userA in
chan1 at t = 1000) in the C4 evaluation. -/
def entryA1 : UrlEntry :=
  { url := "https://a.com", userId := "userA", channelId := "chan1", threadId := none,
    messageId := none, messageUrl := none, timestamp := 1000 }

/-- The store state after that first posting. -/
def stA1 : UrlStorageState := { urls := [("chan1", [entryA1])], isInitialized := true }

/-- Characterization of the expired branch of processUrl. -/
theorem processUrl_of_expired (st : UrlStorageState) (url : String) (message : Msg)
    (now thresholdHours : Int) (hist : UrlEntry)
    (hfind : UrlStorage.findUrlHistory st url = some hist)
    (hage : getPostAgeHours hist.timestamp now > (thresholdHours : ℚ)) :
    UrlTracker.processUrl st url message now thresholdHours =
      ((UrlStorage.addUrl st url message.authorId message.channelId
          (if message.isThread then some message.channelId else none) none none now).1,
        Outcome.expiredRepost) := by
  unfold UrlTracker.processUrl
  rw [hfind]
  simp [hage]

/-- Characterization of the blocked branch of processUrl. -/
theorem processUrl_of_blocked (st : UrlStorageState) (url : String) (message : Msg)
    (now thresholdHours : Int) (hist : UrlEntry)
    (hfind : UrlStorage.findUrlHistory st url = some hist)
    (hage : ¬ getPostAgeHours hist.timestamp now > (thresholdHours : ℚ)) :
    UrlTracker.processUrl st url message now thresholdHours =
      (st, Outcome.blocked (hist.userId == message.authorId)) := by
  unfold UrlTracker.processUrl
  rw [hfind]
  simp [hage]

/-- Characterization of the first-posting branch of processUrl. -/
theorem processUrl_of_new (st : UrlStorageState) (url : String) (message : Msg)
    (now thresholdHours : Int)
    (hfind : UrlStorage.findUrlHistory st url = none) :
    UrlTracker.processUrl st url message now thresholdHours =
      ((UrlStorage.addUrl st url message.authorId message.channelId
          (if message.isThread then some message.channelId else none) none none now).1,
        Outcome.new) := by
  unfold UrlTracker.processUrl
  rw [hfind]

/-- Claim C1, evaluated at the failing input: userB posts https://x.com 48
hours (now = 172800000 ms) after userA stored it at t = 0, with a 24 hour
threshold.  processUrl classifies the post as an expired repost, but the
store record is not replaced: UrlStorage.addUrl skips the new posting as a
duplicate, the state comes back unchanged, and a subsequent lookup still
returns the original record of userA — contrary to the claim (and to the
comment in processUrl announcing that the new instance is stored). -/
theorem C1_expired_repost_record_not_replaced :
    UrlTracker.processUrl stC1 "https://x.com" msgB 172800000 24 =
      (stC1, Outcome.expiredRepost) ∧
    UrlStorage.findUrlHistory stC1 "https://x.com" = some e0 := by
  have hfind : UrlStorage.findUrlHistory stC1 "https://x.com" = some e0 := by decide
  have hage : getPostAgeHours e0.timestamp 172800000 > (24 : ℚ) := by
    norm_num [getPostAgeHours, e0]
  refine ⟨?_, hfind⟩
  rw [processUrl_of_expired stC1 "https://x.com" msgB 172800000 24 e0 hfind hage]
  have hadd : (UrlStorage.addUrl stC1 "https://x.com" msgB.authorId msgB.channelId
      (if msgB.isThread then some msgB.channelId else none) none none 172800000).1 = stC1 := by
    decide
  rw [hadd]

/-- Claim C2, evaluated at the failing input: a record for https://x.com
exists and the existence check for its message reference ends in a transient
oracle failure.  The catch block (which cannot tell a deleted message from a
failed fetch) behaves exactly as in the confirmed-gone case: the record is
deleted from the store and the message reported nonexistent; no soft error
distinguishes the two, contrary to the claim. -/
theorem C2_transient_failure_deletes_record :
    UrlTracker.checkOriginalMessage stC1 "https://x.com" UrlTracker.OracleResult.failure =
      UrlTracker.checkOriginalMessage stC1 "https://x.com" UrlTracker.OracleResult.gone ∧
    (UrlTracker.checkOriginalMessage stC1 "https://x.com"
        UrlTracker.OracleResult.failure).1.urls = [("chan1", [])] ∧
    UrlStorage.findUrlHistory
      (UrlTracker.checkOriginalMessage stC1 "https://x.com"
        UrlTracker.OracleResult.failure).1 "https://x.com" = none := by
  refine ⟨rfl, ?_, ?_⟩ <;> decide

/-- Claim C3: when the existing record has an age exactly equal to the
threshold, processUrl classifies the post as blocked (within threshold) and
leaves the store unchanged; only a strictly greater age yields the expired
repost.  Confirmed: the source tests postAge > thresholdHours. -/
theorem C3_age_equal_threshold_blocked (st : UrlStorageState) (url : String) (message : Msg)
    (now : Int) (thresholdHours : Int) (hist : UrlEntry)
    (hfind : UrlStorage.findUrlHistory st url = some hist)
    (hage : getPostAgeHours hist.timestamp now = (thresholdHours : ℚ)) :
    UrlTracker.processUrl st url message now thresholdHours =
      (st, Outcome.blocked (hist.userId == message.authorId)) := by
  unfold UrlTracker.processUrl
  rw [hfind]
  simp [hage]

/-- Witness for C3: userB posts https://x.com exactly 24 hours (86400000 ms)
after userA, threshold 24 hours: blocked, store unchanged. -/
theorem C3_witness :
    UrlTracker.processUrl stC1 "https://x.com" msgB 86400000 24 =
      (stC1, Outcome.blocked (e0.userId == msgB.authorId)) :=
  C3_age_equal_threshold_blocked stC1 "https://x.com" msgB 86400000 24 e0
    (by decide) (by norm_num [getPostAgeHours, e0])

/-- Claim C4 fails on the code: handleMessage feeds every occurrence of the
regex match result to processUrl without message-local dedup, so one message
containing https://a.com twice yields two outcomes for that single distinct
url — first new, then a blocked repost evaluated against the record the
first occurrence just stored. -/
theorem C4_counterexample :
    (UrlTracker.handleMessage UrlStorage.initStorage
        ["https://a.com", "https://a.com"] msgA 1000 24).2 =
      [Outcome.new, Outcome.blocked true] ∧
    (["https://a.com", "https://a.com"] : List String).dedup = ["https://a.com"] := by
  have h1 : UrlStorage.findUrlHistory UrlStorage.initStorage "https://a.com" = none := by
    decide
  have hadd : (UrlStorage.addUrl UrlStorage.initStorage "https://a.com" msgA.authorId
      msgA.channelId (if msgA.isThread then some msgA.channelId else none) none none 1000).1 =
      stA1 := by decide
  have h2 : UrlStorage.findUrlHistory stA1 "https://a.com" = some entryA1 := by decide
  have hage : ¬ getPostAgeHours entryA1.timestamp 1000 > (24 : ℚ) := by
    norm_num [getPostAgeHours, entryA1]
  constructor
  · simp only [UrlTracker.handleMessage,
      processUrl_of_new UrlStorage.initStorage "https://a.com" msgA 1000 24 h1, hadd,
      processUrl_of_blocked stA1 "https://a.com" msgA 1000 24 entryA1 h2 hage]
    decide
  · decide

/-- Claim C4 amended: ingest yields exactly one outcome per occurrence of a
matched url, in order; message-local duplicates are not removed. -/
theorem C4_one_outcome_per_occurrence (st : UrlStorageState) (matchedUrls : List String)
    (message : Msg) (now thresholdHours : Int) :
    (UrlTracker.handleMessage st matchedUrls message now thresholdHours).2.length =
      matchedUrls.length := by
  induction matchedUrls generalizing st with
  | nil => simp [UrlTracker.handleMessage]
  | cons url rest ih => simp [UrlTracker.handleMessage, ih]

/-- Claim C5 fails on the UrlStore variant of urlStore.js: its addUrl appends
unconditionally, so two addUrl calls for the same url leave two coexisting
records for that canonical url. -/
theorem C5_counterexample :
    ((UrlStore.addUrl (UrlStore.addUrl { dataUrls := [], initialized := true } none
        "https://a.com" "userA" "chan1" none 10).1 none
        "https://a.com" "userB" "chan1" none 20).1.dataUrls.countP
      (fun entry => entry.url == "https://a.com")) = 2 := by
  decide

/-- Claim C5 amended: the invariant does hold for the UrlStorage variant,
whose addUrl refuses any url already stored (isDuplicateUrl over all
channels, trimmed comparison): after any sequence of addUrl calls starting
from the freshly initialized store, at most one stored entry per trimmed url
exists across all channels.  UrlStore.addUrl of urlStore.js appends
unconditionally, and its lookup disambiguates by earliest timestamp. -/
theorem C5_at_most_one_record_per_key (ops : List AddRequest) (key : String) :
    ((allEntries (applyAdds UrlStorage.initStorage ops).urls).countP
      (fun entry => jsTrim entry.url == key)) ≤ 1 := by
  have hwf := applyAdds_wf ops UrlStorage.initStorage storageWF_initStorage
  have h1 : (storeKeys (applyAdds UrlStorage.initStorage ops).urls).count key ≤ 1 :=
    List.nodup_iff_count_le_one.mp hwf.2 key
  have h2 : (storeKeys (applyAdds UrlStorage.initStorage ops).urls).count key =
      (allEntries (applyAdds UrlStorage.initStorage ops).urls).countP
        (fun entry => jsTrim entry.url == key) := by
    show List.countP (fun x => x == key)
        ((allEntries (applyAdds UrlStorage.initStorage ops).urls).map
          (fun entry => jsTrim entry.url)) = _
    rw [List.countP_map]
    rfl
  rw [← h2]
  exact h1

/-- Claim C6 fails on the code: a findUrlHistory call before the store load
completes does not fail with any NotInitialized error.  UrlStorage logs and
returns null — exactly the value that means the url is absent, here equal to
the result of looking up a never-posted url on an initialized empty store —
and UrlStore lazily initializes itself and answers normally, here even
returning the record read from the backing file.  Neither code path has an
error result at all. -/
theorem C6_counterexample :
    UrlStorage.findUrlHistory { urls := [("chan1", [e0])], isInitialized := false }
        "https://x.com" =
      UrlStorage.findUrlHistory UrlStorage.initStorage "https://never-posted.example" ∧
    (UrlStore.findUrlHistory { dataUrls := [], initialized := false } (some [eA])
        "https://a.com").2 = some eA := by
  constructor
  · decide
  · decide

/-- Claim C6 amended: a findUrlHistory call before initialization does not
raise NotInitialized.  UrlStorage returns null, indistinguishable from an
absent url; UrlStore runs its lazy init and returns the ordinary lookup
result over the loaded data. -/
theorem C6_lookup_before_init_does_not_fail :
    (∀ (st : UrlStorageState) (url : String), st.isInitialized = false →
      UrlStorage.findUrlHistory st url = none) ∧
    (∀ (st : UrlStoreState) (disk : Option (List UrlEntryA)) (url : String),
      st.initialized = false →
      UrlStore.findUrlHistory st disk url =
        (UrlStore.init disk, UrlStore.findEarliest (disk.getD []) url)) := by
  constructor
  · intro st url h
    simp [UrlStorage.findUrlHistory, h]
  · intro st disk url h
    simp [UrlStore.findUrlHistory, UrlStore.ensureInit, UrlStore.init, h]

/-- Witness for C6: both parts applied at uninitialized concrete stores. -/
theorem C6_witness :
    UrlStorage.findUrlHistory { urls := [("chan1", [e0])], isInitialized := false }
        "https://x.com" = none ∧
    UrlStore.findUrlHistory { dataUrls := [], initialized := false } (some [eA])
        "https://a.com" =
      (UrlStore.init (some [eA]), UrlStore.findEarliest [eA] "https://a.com") :=
  ⟨C6_lookup_before_init_does_not_fail.1 _ _ rfl,
   C6_lookup_before_init_does_not_fail.2 _ _ _ rfl⟩

/-- Claim C7 fails on the code: the try/catch of handleUrlMessage wraps the
whole per-url loop, so when the store write for the first url fails the
remaining url of the same message is never processed and neither url yields
any outcome — the error is only logged.  The message here contains
https://a.com (whose write fails) and https://b.com (which would succeed). -/
theorem C7_counterexample :
    (UrlTrackerA.handleUrlMessage { dataUrls := [], initialized := true } none
        ["https://a.com", "https://b.com"] msgA7
        (fun _ => UrlTracker.OracleResult.live)
        (fun url => url != "https://a.com") 100).2 = [] := by
  decide

/-- Claim C7 amended: an exception while processing one url of a message
(for example a failing store write) is caught by the message-level catch:
that url is surfaced to nobody — the error is only logged, no outcome is
produced — and the remaining urls of the same message are not processed.
The store keeps whatever in-memory mutations the failing iteration already
made. -/
theorem C7_failure_aborts_message (st : UrlStoreState) (disk : Option (List UrlEntryA))
    (url : String) (rest : List String) (message : UrlTrackerA.MsgA)
    (oracle : String → UrlTracker.OracleResult) (writeOk : String → Bool) (now : Int)
    (st1 : UrlStoreState)
    (herr : UrlTrackerA.processOne st disk url message (oracle url) (writeOk url) now =
      Except.error st1) :
    UrlTrackerA.handleUrlMessage st disk (url :: rest) message oracle writeOk now =
      (st1, []) := by
  unfold UrlTrackerA.handleUrlMessage
  rw [herr]

/-- The in-memory UrlStore state left behind by the aborted iteration of the
C7 evaluation: the entry was pushed before the write failed. -/
def stErr7 : UrlStoreState :=
  { dataUrls := [{ url := "https://a.com", userId := "userA", channelId := "chan1",
                   threadId := none, timestamp := 100 }],
    initialized := true }

/-- Witness for C7: the concrete failing write on https://a.com aborts the
message, leaving the pushed entry in memory and producing no outcome. -/
theorem C7_witness :
    UrlTrackerA.handleUrlMessage { dataUrls := [], initialized := true } none
        ("https://a.com" :: ["https://b.com"]) msgA7
        (fun _ => UrlTracker.OracleResult.live)
        (fun url => url != "https://a.com") 100 = (stErr7, []) :=
  C7_failure_aborts_message { dataUrls := [], initialized := true } none "https://a.com"
    ["https://b.com"] msgA7 (fun _ => UrlTracker.OracleResult.live)
    (fun url => url != "https://a.com") 100 stErr7 (by rfl)

/-- Claim C8: persisting the channel map (Object.fromEntries of the Map,
stringified) and reloading it (parse plus the Object.entries loop of init)
reproduces an identical mapping — the same channel keys with entry lists of
identical field values.  The hypothesis records that the keys of a JS Map
are pairwise distinct, which is what makes Object.fromEntries faithful. -/
theorem C8_save_load_roundtrip (urls : List (String × List UrlEntry))
    (_hkeys : (urls.map Prod.fst).Nodup) :
    decodeStore (encodeStore urls) = some urls :=
  decodeStore_encodeStore urls

/-- Witness for C8: round trip of a one-channel store holding e0. -/
theorem C8_witness :
    decodeStore (encodeStore [("chan1", [e0])]) = some [("chan1", [e0])] :=
  C8_save_load_roundtrip [("chan1", [e0])] (by decide)

/-- Claim C9: whenever processUrl classifies a post as a blocked repost (an
existing record within the threshold; the reply embed distinguishes the
same-user and other-user cases), the store state is returned unchanged — no
record is inserted, removed or modified. -/
theorem C9_blocked_leaves_store_unchanged (st : UrlStorageState) (url : String)
    (message : Msg) (now thresholdHours : Int) (b : Bool)
    (h : (UrlTracker.processUrl st url message now thresholdHours).2 = Outcome.blocked b) :
    (UrlTracker.processUrl st url message now thresholdHours).1 = st := by
  cases hfind : UrlStorage.findUrlHistory st url with
  | none =>
    rw [processUrl_of_new st url message now thresholdHours hfind] at h
    simp at h
  | some hist =>
    by_cases hage : getPostAgeHours hist.timestamp now > (thresholdHours : ℚ)
    · rw [processUrl_of_expired st url message now thresholdHours hist hfind hage] at h
      simp at h
    · rw [processUrl_of_blocked st url message now thresholdHours hist hfind hage]

/-- Witness for C9: userB reposts https://x.com one second after userA with a
24 hour threshold; the outcome is blocked and the store is unchanged. -/
theorem C9_witness :
    (UrlTracker.processUrl stC1 "https://x.com" msgB 1000 24).1 = stC1 :=
  C9_blocked_leaves_store_unchanged stC1 "https://x.com" msgB 1000 24 false
    (by
      rw [processUrl_of_blocked stC1 "https://x.com" msgB 1000 24 e0 (by decide)
        (by norm_num [getPostAgeHours, e0])]
      decide)

/-- Claim C10: UrlStore.findUrlHistory filters the stored entries with the
exact url string, sorts them by ascending timestamp with the stable JS sort
and returns element [0].  So the lookup is absent exactly when no stored
entry has that url, and any returned entry is a stored entry with that url
whose timestamp is minimal among all stored entries with that url — the
oldest sighting.  Confirmed. -/
theorem C10_find_earliest_is_oldest (entries : List UrlEntryA) (url : String) :
    (UrlStore.findEarliest entries url = none ↔ ∀ e ∈ entries, e.url ≠ url) ∧
    (∀ e, UrlStore.findEarliest entries url = some e →
      e ∈ entries ∧ e.url = url ∧
        ∀ e2 ∈ entries, e2.url = url → e.timestamp ≤ e2.timestamp) := by
  have hperm := sortStable_perm UrlStore.byTimestampAsc
    (entries.filter (fun entry => entry.url == url))
  have htrans : ∀ a b c : UrlEntryA, UrlStore.byTimestampAsc a b = true →
      UrlStore.byTimestampAsc b c = true → UrlStore.byTimestampAsc a c = true := by
    intro a b c hab hbc
    simp only [UrlStore.byTimestampAsc, decide_eq_true_eq] at hab hbc ⊢
    exact le_trans hab hbc
  have htotal : ∀ a b : UrlEntryA, UrlStore.byTimestampAsc a b = true ∨
      UrlStore.byTimestampAsc b a = true := by
    intro a b
    simp only [UrlStore.byTimestampAsc, decide_eq_true_eq]
    exact Int.le_total a.timestamp b.timestamp
  constructor
  · unfold UrlStore.findEarliest
    rw [List.head?_eq_none_iff]
    constructor
    · intro hs e he hurl
      have hf : entries.filter (fun entry => entry.url == url) = [] := by
        rw [hs] at hperm
        exact (hperm.symm.eq_nil)
      have hmem : e ∈ entries.filter (fun entry => entry.url == url) :=
        List.mem_filter.mpr ⟨he, by simp [hurl]⟩
      rw [hf] at hmem
      simp at hmem
    · intro hall
      have hf : entries.filter (fun entry => entry.url == url) = [] :=
        List.filter_eq_nil_iff.mpr (fun e he => by simp [hall e he])
      rw [hf]
      rfl
  · intro e he
    unfold UrlStore.findEarliest at he
    cases hs : sortStable UrlStore.byTimestampAsc
        (entries.filter (fun entry => entry.url == url)) with
    | nil =>
      rw [hs] at he
      simp at he
    | cons x tail =>
      rw [hs] at he
      simp only [List.head?_cons, Option.some_inj] at he
      subst he
      rw [hs] at hperm
      have hxf : x ∈ entries.filter (fun entry => entry.url == url) :=
        hperm.mem_iff.mp (List.mem_cons_self x tail)
      obtain ⟨hmem, hurl⟩ := List.mem_filter.mp hxf
      refine ⟨hmem, by simpa using hurl, ?_⟩
      intro e2 he2 hurl2
      have he2f : e2 ∈ entries.filter (fun entry => entry.url == url) :=
        List.mem_filter.mpr ⟨he2, by simp [hurl2]⟩
      have he2s : e2 ∈ x :: tail := hperm.mem_iff.mpr he2f
      rcases List.mem_cons.mp he2s with hcase | hcase
      · rw [hcase]
      · have hpw := sortStable_pairwise UrlStore.byTimestampAsc htrans htotal
          (entries.filter (fun entry => entry.url == url))
        rw [hs] at hpw
        have hrel := List.rel_of_pairwise_cons hpw hcase
        simpa [UrlStore.byTimestampAsc, decide_eq_true_eq] using hrel

/-- Witness for C10: two stored sightings of https://a.com with timestamps 5
and 3; the lookup answer eA3 (timestamp 3) is a stored entry with that url
and its timestamp is minimal. -/
theorem C10_witness :
    eA3 ∈ [eA, eA3] ∧ eA3.url = "https://a.com" ∧
      ∀ e2 ∈ [eA, eA3], e2.url = "https://a.com" → eA3.timestamp ≤ e2.timestamp :=
  (C10_find_earliest_is_oldest [eA, eA3] "https://a.com").2 eA3 (by decide)
